import Mathlib

/-
Verification of the Auckland-RouteSafe crime/route ETL pipeline.

The repository contains two generations of the same pipeline:
  * src/etl_master.py  (line-intersection + stop-containment association), and
  * src/elt_master.py  (50 m buffered line association, stricter row dropping).

This file gives a shallow embedding of the parts of both scripts that the
specification's testable properties talk about: Python string cleaning
(strip / zfill / regex-based territorial-authority cleaning), area-key
normalization, the spatial-association stage of etl_master.analyze_and_aggregate
(geometry predicates are abstracted to Boolean functions, since the actual
predicates live in shapely/geopandas, outside the repository), the aggregation
stage (per-route totals, monthly trend, type breakdown, global date range),
the empty-input output paths, the crime-input schema checks of
fetch_and_clean_police_data together with run_etl's error propagation, and the
row-dropping behaviour of elt_master.fetch_and_clean_police_data.

Conventions of the embedding:
  * pandas NaN/None cell values are `Option`/`PyVal.null`; `astype(str)` turns a
    missing value into the string "nan" exactly as pandas does;
  * `reset_index(names=[...])` identifiers are list positions (`List.enum`);
  * a pandas `sjoin`/`merge` is a `flatMap`/`filter` over list rows and
    `drop_duplicates` is first-occurrence deduplication (`dedupBy`);
  * dates are represented after parsing: `pd.to_datetime(..., errors="coerce")`
    is library code, so a crime month carries `Option Nat` (none = NaT); characters
    are ASCII, so Python's `\w`/`\s`/`upper` are modelled on ASCII.
-/

/-- Python whitespace characters (the ASCII part of `str.strip` / regex `\s`). -/
def isPySpace (c : Char) : Bool :=
  c == ' ' || c == '\t' || c == '\n' || c == '\r' || c == '\x0b' || c == '\x0c'

/-- Python `str.strip()` on a character list: drop whitespace from both ends. -/
def pyStrip (l : List Char) : List Char :=
  List.rdropWhile isPySpace (l.dropWhile isPySpace)

/-- Python `str.strip()` on a `String`. -/
def pyStripS (s : String) : String :=
  ⟨pyStrip s.data⟩

/-- Python `str.zfill w`: left-pad with the character 0 up to width `w`,
keeping a leading sign character in front of the padding. -/
def pyZfill (w : Nat) (l : List Char) : List Char :=
  if w ≤ l.length then l
  else
    match l with
    | [] => List.replicate w '0'
    | c :: rest =>
      if c == '+' || c == '-' then
        c :: (List.replicate (w - (rest.length + 1)) '0' ++ rest)
      else
        List.replicate (w - (rest.length + 1)) '0' ++ (c :: rest)

/-- Meshblock-key normalization of etl_master.py line 147:
`.astype(str).str.strip().str.zfill(7)` on the reference table's `MB_number`. -/
def etlMeshblockKeyNorm (s : String) : String :=
  ⟨pyZfill 7 (pyStrip s.data)⟩

/-- Meshblock-key normalization of etl_master.py line 204:
`.astype(str).str.strip().str.zfill(7)` on the crime records' `Meshblock`. -/
def etlCrimeKeyNorm (s : String) : String :=
  ⟨pyZfill 7 (pyStrip s.data)⟩

/-- Meshblock-key normalization of elt_master.py line 103:
`.astype(str).str.strip()` (no zero-padding) on the table's `MB_number`. -/
def eltMeshblockKeyNorm (s : String) : String :=
  ⟨pyStrip s.data⟩

/-- Meshblock-key normalization of elt_master.py line 159:
`.astype(str).str.strip()` (no zero-padding) on the crime records' `Meshblock`. -/
def eltCrimeKeyNorm (s : String) : String :=
  ⟨pyStrip s.data⟩

/-- A pandas cell value: either missing (NaN/None) or a string. -/
inductive PyVal
  | null
  | s (v : String)
deriving DecidableEq

/-- `pd.isna` on a cell value. -/
def pdIsna : PyVal → Bool
  | PyVal.null => true
  | PyVal.s _ => false

/-- pandas `.astype(str)`: a missing value prints as "nan". -/
def astypeStr : PyVal → String
  | PyVal.null => "nan"
  | PyVal.s v => v

/-- Regex `\w` (ASCII part): letters, digits and underscore. -/
def isWordChar (c : Char) : Bool :=
  c.isAlphanum || c == '_'

/-- `re.sub(r"[^\w\s]", "", s)`: keep only word and whitespace characters. -/
def subNonWordSpace (l : List Char) : List Char :=
  l.filter fun c => isWordChar c || isPySpace c

/-- Helper for `re.sub(r"\s+", " ", s)`; the flag records whether the previous
kept character closed a whitespace run. -/
def collapseWsAux : Bool → List Char → List Char
  | _, [] => []
  | prevWs, c :: rest =>
    if isPySpace c then
      if prevWs then collapseWsAux true rest
      else ' ' :: collapseWsAux true rest
    else c :: collapseWsAux false rest

/-- `re.sub(r"\s+", " ", s)`: collapse each whitespace run to one space. -/
def collapseWs (l : List Char) : List Char :=
  collapseWsAux false l

/-- Python `str.upper()` (ASCII). -/
def pyUpper (l : List Char) : List Char :=
  l.map Char.toUpper

/-- clean_territorial_authority of etl_master.py lines 35-40 (identical in
elt_master.py lines 31-36): missing names become the empty string; otherwise
punctuation is removed, whitespace collapsed, ends stripped and case raised. -/
def clean_territorial_authority (name : PyVal) : String :=
  if pdIsna name then ""
  else ⟨pyUpper (pyStrip (collapseWs (subNonWordSpace (astypeStr name).data)))⟩

/-- AUCKLAND_AUTHORITIES of etl_master.py line 21 / elt_master.py line 19. -/
def AUCKLAND_AUTHORITIES : List String :=
  ["Auckland", "Waitemata", "Counties Manukau", "Franklin", "Auckland City"]

/-- AUCKLAND_AUTHORITIES_CLEANED of etl_master.py line 42 / elt_master.py line 38. -/
def AUCKLAND_AUTHORITIES_CLEANED : List String :=
  AUCKLAND_AUTHORITIES.map fun name => clean_territorial_authority (PyVal.s name)

/-- The district normalization actually applied to each record in the pipeline
(etl_master.py line 207, elt_master.py line 176):
`df["Territorial Authority"].astype(str).apply(clean_territorial_authority)`.
`astype(str)` runs first, so `clean_territorial_authority` never sees a null. -/
def pipelineCleanTA (x : PyVal) : String :=
  clean_territorial_authority (PyVal.s (astypeStr x))

/-- A row of the raw crime CSV restricted to the columns the claims touch.
`CrimeMonth` is the value after `pd.to_datetime(..., errors="coerce")`
(`none` = NaT); `OffenceType` is the `ANZSOC Division` cell (`none` = NaN). -/
structure CrimeCSVRow where
  TerritorialAuthority : PyVal
  Meshblock : String
  CrimeMonth : Option Nat
  OffenceType : Option String
deriving DecidableEq

/-- Auckland filter of etl_master.py lines 207-208: keep rows whose cleaned
territorial authority is in the cleaned allow-list. -/
def etlAucklandFilter (rows : List CrimeCSVRow) : List CrimeCSVRow :=
  rows.filter fun r =>
    decide (pipelineCleanTA r.TerritorialAuthority ∈ AUCKLAND_AUTHORITIES_CLEANED)

/-- Left merge of elt_master.py lines 166-171: each crime row is joined with
every meshblock-table row whose normalized `MB_number` equals the row's
normalized `Meshblock`; rows with no match keep a missing geometry. -/
def eltMerged (rows : List CrimeCSVRow) (mbTable : List (String × Nat)) :
    List (CrimeCSVRow × Option Nat) :=
  rows.flatMap fun r =>
    let ms := mbTable.filter fun p => eltMeshblockKeyNorm p.1 == eltCrimeKeyNorm r.Meshblock
    if ms.isEmpty then [(r, none)] else ms.map fun p => (r, some p.2)

/-- Auckland filter of elt_master.py lines 176-177 (applied after the merge). -/
def eltAuckland (l : List (CrimeCSVRow × Option Nat)) : List (CrimeCSVRow × Option Nat) :=
  l.filter fun rp =>
    decide (pipelineCleanTA rp.1.TerritorialAuthority ∈ AUCKLAND_AUTHORITIES_CLEANED)

/-- Final cleaned crime set of elt_master.py line 205:
`df_final.dropna(subset=["geometry", "CrimeMonth", "OffenceType"])` drops every
row that is missing its geometry, its parsed month or its offence type. -/
def eltFinalCrimes (rows : List CrimeCSVRow) (mbTable : List (String × Nat)) :
    List (CrimeCSVRow × Option Nat) :=
  (eltAuckland (eltMerged rows mbTable)).filter fun rp =>
    rp.2.isSome && rp.1.CrimeMonth.isSome && rp.1.OffenceType.isSome

/-- A route row of etl_master.fetch_route_geometry's output: `Route No` and the
line geometry (an opaque handle consumed by the abstract intersection test). -/
structure RouteRow where
  routeNo : String
  line : Nat
deriving DecidableEq

/-- A bus-stop row of etl_master.fetch_stop_geometry's output. -/
structure StopRow where
  STOPID : Nat
  pt : Nat
deriving DecidableEq

/-- A resolved crime row entering etl_master.analyze_and_aggregate:
meshblock key, polygon geometry handle, offence type and parsed month. -/
structure CrimeRow where
  Meshblock : String
  poly : Nat
  OffenceType : Option String
  CrimeMonth : Option Nat
deriving DecidableEq

/-- A row of the association tables of etl_master.py lines 345-384:
crime identifier (`crime_data_id` from `reset_index`), its meshblock key,
route identifier (`route_geom_id` from `reset_index`) and `Route No`. -/
structure Assoc where
  crime_data_id : Nat
  Meshblock : String
  route_geom_id : Nat
  routeNo : String
deriving DecidableEq

/-- The (crime identifier, route identifier) pair carried by an association row. -/
def assocPair (a : Assoc) : Nat × String :=
  (a.crime_data_id, a.routeNo)

/-- First-occurrence deduplication by a key, with the keys already seen
accumulating on the left (pandas `drop_duplicates(subset=...)`). -/
def dedupByAux {α β : Type} [DecidableEq β] (key : α → β) : List β → List α → List α
  | _, [] => []
  | seen, a :: rest =>
    if key a ∈ seen then dedupByAux key seen rest
    else a :: dedupByAux key (key a :: seen) rest

/-- pandas `drop_duplicates(subset=...)`: keep the first row for each key. -/
def dedupBy {α β : Type} [DecidableEq β] (key : α → β) (l : List α) : List α :=
  dedupByAux key [] l

/-- line_join of etl_master.py lines 345-350: inner spatial join of crime
polygons against route lines with the `intersects` predicate. -/
def etlLineJoin (inter : Nat → Nat → Bool) (crimes : List CrimeRow)
    (routes : List RouteRow) : List Assoc :=
  crimes.enum.flatMap fun ci =>
    (routes.enum.filter fun ri => inter ci.2.poly ri.2.line).map fun ri =>
      { crime_data_id := ci.1, Meshblock := ci.2.Meshblock,
        route_geom_id := ri.1, routeNo := ri.2.routeNo }

/-- stop_join of etl_master.py lines 358-363: inner spatial join of crime
polygons against stop points with the `contains` predicate. -/
def etlStopJoin (cont : Nat → Nat → Bool) (crimes : List CrimeRow)
    (stops : List StopRow) : List (Nat × String × Nat) :=
  crimes.enum.flatMap fun ci =>
    (stops.filter fun s => cont ci.2.poly s.pt).map fun s =>
      (ci.1, ci.2.Meshblock, s.STOPID)

/-- crime_meshblocks_with_stops of etl_master.py line 366. -/
def etlCrimeMeshblocksWithStops (cont : Nat → Nat → Bool) (crimes : List CrimeRow)
    (stops : List StopRow) : List String :=
  dedupBy id ((etlStopJoin cont crimes stops).map fun t => t.2.1)

/-- stop_route_join of etl_master.py lines 369-373: the line_join rows whose
meshblock contains some stop, deduplicated on (crime_data_id, Route No).
Note the routes come from line_join, not from any stop-to-route membership. -/
def etlStopRouteJoin (inter cont : Nat → Nat → Bool) (crimes : List CrimeRow)
    (routes : List RouteRow) (stops : List StopRow) : List Assoc :=
  dedupBy assocPair
    ((etlLineJoin inter crimes routes).filter fun a =>
      decide (a.Meshblock ∈ etlCrimeMeshblocksWithStops cont crimes stops))

/-- line_join after etl_master.py line 380: full-row `drop_duplicates()`. -/
def etlLineJoinDedup (inter : Nat → Nat → Bool) (crimes : List CrimeRow)
    (routes : List RouteRow) : List Assoc :=
  dedupBy id (etlLineJoin inter crimes routes)

/-- combined_crime_routes of etl_master.py line 382: concatenation of both
methods' rows deduplicated on (crime_data_id, Route No). -/
def etlCombined (inter cont : Nat → Nat → Bool) (crimes : List CrimeRow)
    (routes : List RouteRow) (stops : List StopRow) : List Assoc :=
  dedupBy assocPair
    (etlLineJoinDedup inter crimes routes ++ etlStopRouteJoin inter cont crimes routes stops)

/-- The pair set produced by the line-intersection method alone. -/
def etlLinePairs (inter : Nat → Nat → Bool) (crimes : List CrimeRow)
    (routes : List RouteRow) : List (Nat × String) :=
  (etlLineJoin inter crimes routes).map assocPair

/-- The pair set of the final combined association table. -/
def etlCombinedPairs (inter cont : Nat → Nat → Bool) (crimes : List CrimeRow)
    (routes : List RouteRow) (stops : List StopRow) : List (Nat × String) :=
  (etlCombined inter cont crimes routes stops).map assocPair

/-- A row of crime_counts (etl_master.py lines 387-388): a combined association
row with the crime's `OffenceType` and `CrimeMonth` merged back by
`crime_data_id` (which indexes the crime list, as produced by `reset_index`). -/
structure CCRow where
  crime_data_id : Nat
  route_geom_id : Nat
  routeNo : String
  OffenceType : Option String
  CrimeMonth : Option Nat
deriving DecidableEq

/-- crime_counts of etl_master.py line 388. -/
def etlCrimeCounts (inter cont : Nat → Nat → Bool) (crimes : List CrimeRow)
    (routes : List RouteRow) (stops : List StopRow) : List CCRow :=
  (etlCombined inter cont crimes routes stops).map fun a =>
    { crime_data_id := a.crime_data_id, route_geom_id := a.route_geom_id,
      routeNo := a.routeNo,
      OffenceType := (crimes[a.crime_data_id]?).bind (·.OffenceType),
      CrimeMonth := (crimes[a.crime_data_id]?).bind (·.CrimeMonth) }

/-- route_data of etl_master.py line 423: the crime_counts rows of one route. -/
def etlRouteRows (cc : List CCRow) (rid : Nat) : List CCRow :=
  cc.filter fun x => x.route_geom_id == rid

/-- total_crime_summary of etl_master.py line 409: `groupby("route_geom_id").size()`. -/
def etlTotalCrimeSummary (cc : List CCRow) : List (Nat × Nat) :=
  (dedupBy id (cc.map (·.route_geom_id))).map fun rid => (rid, (etlRouteRows cc rid).length)

/-- monthly_trend of etl_master.py lines 426-428: group the rows that have a
valid month by month and count each group. -/
def etlMonthlyTrend (rows : List CCRow) : List (Nat × Nat) :=
  ((rows.filterMap (·.CrimeMonth)).dedup).map fun m =>
    (m, ((rows.filterMap (·.CrimeMonth)).filter fun x => decide (x = m)).length)

/-- type_breakdown of etl_master.py lines 430-431: `value_counts()` over
`OffenceType`, which silently drops missing values. -/
def etlTypeBreakdown (rows : List CCRow) : List (String × Nat) :=
  ((rows.filterMap (·.OffenceType)).dedup).map fun k =>
    (k, ((rows.filterMap (·.OffenceType)).filter fun x => decide (x = k)).length)

/-- A per-route entry of crime_details["routes"]. -/
structure RouteDetail where
  monthly_trend : List (Nat × Nat)
  type_breakdown : List (String × Nat)
deriving DecidableEq

/-- crime_details["routes"] of etl_master.py lines 422-436: one entry per route
identifier occurring in crime_counts, keyed by that route's `Route No`. -/
def etlCrimeDetailsRoutes (cc : List CCRow) (routes : List RouteRow) :
    List (String × RouteDetail) :=
  ((etlTotalCrimeSummary cc).map Prod.fst).map fun rid =>
    ((((routes[rid]?).map (·.routeNo)).getD ""),
      { monthly_trend := etlMonthlyTrend (etlRouteRows cc rid),
        type_breakdown := etlTypeBreakdown (etlRouteRows cc rid) })

/-- A reported period endpoint: either the explicit not-available sentinel
string of etl_master.py lines 319, 393 and 405, or a valid date. -/
inductive DateVal
  | na (msg : String)
  | val (m : Nat)
deriving DecidableEq

/-- min_date/max_date of etl_master.py lines 400-406: extremes of the valid
months of crime_counts, or the sentinel when every month is missing. -/
def etlDateRange (cc : List CCRow) : DateVal × DateVal :=
  match (cc.filterMap (·.CrimeMonth)).min?, (cc.filterMap (·.CrimeMonth)).max? with
  | some a, some b => (DateVal.val a, DateVal.val b)
  | _, _ => (DateVal.na "N/A (All dates invalid)", DateVal.na "N/A (All dates invalid)")

/-- gdf_output of etl_master.py lines 439-445: every route with its total count
merged back (`how="left"`), missing totals filled with 0. -/
def etlGeoOutput (cc : List CCRow) (routes : List RouteRow) : List (String × Nat) :=
  routes.enum.map fun ri =>
    (ri.2.routeNo, (((etlTotalCrimeSummary cc).find? fun p => p.1 == ri.1).map Prod.snd).getD 0)

/-- The two output artifacts of analyze_and_aggregate: the GeoJSON rows
(route number, total count) and the stats document's fields. -/
structure EtlOutput where
  geo : List (String × Nat)
  periodStart : DateVal
  periodEnd : DateVal
  detailRoutes : List (String × RouteDetail)
deriving DecidableEq

/-- The artifacts written by empty_geojson_output / empty_stats_output of
etl_master.py lines 455-475: all totals 0, empty routes map, "N/A" dates. -/
def etlEmptyOutput (routes : List RouteRow) : EtlOutput :=
  { geo := routes.map fun r => (r.routeNo, 0),
    periodStart := DateVal.na "N/A", periodEnd := DateVal.na "N/A",
    detailRoutes := [] }

/-- analyze_and_aggregate of etl_master.py lines 311-453, restricted to the
values of the two output artifacts. -/
def etlAnalyzeAndAggregate (inter cont : Nat → Nat → Bool) (routes : List RouteRow)
    (crimes : List CrimeRow) (stops : List StopRow) : EtlOutput :=
  if crimes.isEmpty then etlEmptyOutput routes
  else if (etlCrimeCounts inter cont crimes routes stops).isEmpty then etlEmptyOutput routes
  else
    { geo := etlGeoOutput (etlCrimeCounts inter cont crimes routes stops) routes,
      periodStart := (etlDateRange (etlCrimeCounts inter cont crimes routes stops)).1,
      periodEnd := (etlDateRange (etlCrimeCounts inter cont crimes routes stops)).2,
      detailRoutes :=
        etlCrimeDetailsRoutes (etlCrimeCounts inter cont crimes routes stops) routes }

/-- Remove every occurrence of the byte-order-mark artifact characters that
`col.replace("\xef\xbb\xbf".decode, "")` removes in etl_master.py line 165. -/
def removeBomL : List Char → List Char
  | 'ï' :: '»' :: '¿' :: rest => removeBomL rest
  | c :: rest => c :: removeBomL rest
  | [] => []

/-- Column-name cleaning of etl_master.py lines 164-165: strip, then remove the
BOM artifact and strip again. -/
def etlCleanColumns (cols : List String) : List String :=
  (cols.map pyStripS).map fun c => pyStripS ⟨removeBomL c.data⟩

/-- Bool test of `startsWith` on character lists. -/
def startsWithL : List Char → List Char → Bool
  | [], _ => true
  | _ :: _, [] => false
  | a :: p, b :: l => a == b && startsWithL p l

/-- Python's `sub in str`: substring containment on character lists. -/
def containsSubL (p : List Char) : List Char → Bool
  | [] => p.isEmpty
  | c :: rest => startsWithL p (c :: rest) || containsSubL p rest

/-- The "meshblock-like" column test of etl_master.py line 170:
`"meshblock" in col.lower()`. -/
def lowerHasMeshblock (c : String) : Bool :=
  containsSubL "meshblock".data (c.data.map Char.toLower)

/-- Crime-input schema resolution of etl_master.py lines 164-174: the
`Year Month` column is mandatory; a missing `Meshblock` column may be healed by
renaming a meshblock-like column, otherwise it is mandatory too. -/
def etlResolveSchema (cols : List String) : Except String (List String) :=
  if "Year Month" ∈ etlCleanColumns cols then
    if "Meshblock" ∈ etlCleanColumns cols then Except.ok (etlCleanColumns cols)
    else
      match (etlCleanColumns cols).filter lowerHasMeshblock with
      | m :: _ =>
        Except.ok ((etlCleanColumns cols).map fun c => if c == m then "Meshblock" else c)
      | [] => Except.error "Required \x27Meshblock\x27 column not found."
  else Except.error "Required \x27Year Month\x27 column not found."

/-- run_etl of etl_master.py lines 479-503, restricted to configuration and
schema checking: a missing POLICE_DATA_URL or a raised KeyError ends the run
with exit status 1 and the diagnostic message. -/
def run_etl_schema (policeDataUrl : Option String) (cols : List String) :
    Except (Nat × String) (List String) :=
  match policeDataUrl with
  | none => Except.error (1, "POLICE_DATA_URL environment variable is missing.")
  | some u =>
    if u == "" then Except.error (1, "POLICE_DATA_URL environment variable is missing.")
    else
      match etlResolveSchema cols with
      | Except.error msg => Except.error (1, msg)
      | Except.ok cleaned => Except.ok cleaned

/-- The caller-visible state of the routes GeoDataFrame: its rows, its CRS and
the `Total_Crime_Count` column if one has been assigned into the frame. -/
structure RoutesTable where
  rows : List (String × Nat)
  crs : String
  totalCrimeCountCol : Option Nat
deriving DecidableEq

/-- empty_geojson_output of etl_master.py lines 455-462. When the CRS differs
from EPSG:4326, `to_crs` rebinds the local name to a fresh frame and the
`Total_Crime_Count` assignment mutates only that fresh frame; when the CRS is
already EPSG:4326, the assignment mutates the caller's frame in place. The
first component is the caller's table after the call, the second the rows of
the written artifact. -/
def etl_empty_geojson_output (t : RoutesTable) : RoutesTable × List (String × Nat) :=
  if t.crs ≠ "EPSG:4326" then
    (t, t.rows.map fun p => (p.1, 0))
  else
    ({ t with totalCrimeCountCol := some 0 }, t.rows.map fun p => (p.1, 0))

/-- empty_geojson_output of elt_master.py lines 324-328: the
`Total_Crime_Count` assignment happens before `to_crs` rebinds, so it always
mutates the caller's frame. -/
def elt_empty_geojson_output (t : RoutesTable) : RoutesTable × List (String × Nat) :=
  ({ t with totalCrimeCountCol := some 0 }, t.rows.map fun p => (p.1, 0))

/-- crime_counts of elt_master.py line 267: inner spatial join of the cleaned
crime rows against the index-reset buffered route rows; `interBuf` abstracts
"crime geometry intersects the 50 m buffer of the route line". -/
def eltCrimeCounts (interBuf : Nat → Nat → Bool) (crimes : List (CrimeCSVRow × Option Nat))
    (routes : List RouteRow) : List ((CrimeCSVRow × Option Nat) × Nat) :=
  crimes.flatMap fun c =>
    (routes.enum.filter fun ri => interBuf (c.2.getD 0) ri.2.line).map fun ri => (c, ri.1)

/-- Per-route total of elt_master.py line 280: `groupby("index_right").size()`
evaluated at one route row index. -/
def eltRouteTotal (cc : List ((CrimeCSVRow × Option Nat) × Nat)) (idx : Nat) : Nat :=
  (cc.filter fun x => x.2 == idx).length

/-- Shared concrete sample data for witnesses and counterexamples. -/
def sampleCrime : CrimeRow :=
  { Meshblock := "0000001", poly := 0, OffenceType := some "Theft", CrimeMonth := some 3 }

/-- Sample route. -/
def sampleRoute : RouteRow :=
  { routeNo := "R1", line := 0 }

/-- Sample stop. -/
def sampleStop : StopRow :=
  { STOPID := 5, pt := 0 }

/-- Sample meshblock geometry table for the elt_master merge. -/
def sampleMbTable : List (String × Nat) :=
  [("0000001", 0)]

/-- A crime CSV row with a missing (unparseable) month but valid geometry,
district and offence type. -/
def rowMissingMonth : CrimeCSVRow :=
  { TerritorialAuthority := PyVal.s "Auckland", Meshblock := "0000001",
    CrimeMonth := none, OffenceType := some "Theft" }

/-- A crime CSV row with a missing offence type but valid geometry, district
and month. -/
def rowMissingOffence : CrimeCSVRow :=
  { TerritorialAuthority := PyVal.s "Auckland", Meshblock := "0000001",
    CrimeMonth := some 3, OffenceType := none }

/-- A crime CSV row with every relevant field present. -/
def rowComplete : CrimeCSVRow :=
  { TerritorialAuthority := PyVal.s "Auckland", Meshblock := "0000001",
    CrimeMonth := some 3, OffenceType := some "Theft" }

/-- A routes table already in the output CRS, without a total-count column. -/
def sampleRoutesTable : RoutesTable :=
  { rows := [("R1", 0)], crs := "EPSG:4326", totalCrimeCountCol := none }

/-- A routes table in the projected CRS, without a total-count column. -/
def sampleRoutesTableProj : RoutesTable :=
  { rows := [("R1", 0)], crs := "EPSG:2193", totalCrimeCountCol := none }

/-- A one-row crime_counts table for witnesses. -/
def sampleCC : List CCRow :=
  [{ crime_data_id := 0, route_geom_id := 0, routeNo := "R1",
     OffenceType := some "Theft", CrimeMonth := some 3 }]

/-- Every row surviving `dedupByAux` comes from the input list. -/
theorem dedupByAux_mem {α β : Type} [DecidableEq β] (key : α → β) :
    ∀ (seen : List β) (l : List α) (a : α), a ∈ dedupByAux key seen l → a ∈ l := by
  intro seen l
  induction l generalizing seen with
  | nil => intro a h; simp [dedupByAux] at h
  | cons b rest ih =>
    intro a h
    simp only [dedupByAux] at h
    by_cases hk : key b ∈ seen
    · simp [hk] at h
      exact List.mem_cons_of_mem _ (ih seen a h)
    · simp [hk] at h
      rcases h with h | h
      · simp [h]
      · exact List.mem_cons_of_mem _ (ih _ a h)

/-- A key occurring in the input and not yet seen occurs in the output. -/
theorem dedupByAux_key_mem {α β : Type} [DecidableEq β] (key : α → β) :
    ∀ (seen : List β) (l : List α) (k : β),
      k ∈ l.map key → k ∉ seen → k ∈ (dedupByAux key seen l).map key := by
  intro seen l
  induction l generalizing seen with
  | nil => intro k h; simp at h
  | cons b rest ih =>
    intro k hk hns
    simp only [List.map_cons, List.mem_cons] at hk
    simp only [dedupByAux]
    by_cases hb : key b ∈ seen
    · simp only [hb, if_true]
      rcases hk with hk | hk
      · exact absurd (hk ▸ hb) hns
      · exact ih seen k hk hns
    · simp only [hb, if_false, List.map_cons, List.mem_cons]
      rcases hk with hk | hk
      · exact Or.inl hk
      · by_cases hkb : k = key b
        · exact Or.inl hkb
        · exact Or.inr (ih (key b :: seen) k hk (by simp [hkb, hns]))

/-- The key of every output row of `dedupByAux` is not among the seen keys. -/
theorem dedupByAux_not_seen {α β : Type} [DecidableEq β] (key : α → β) :
    ∀ (seen : List β) (l : List α) (a : α), a ∈ dedupByAux key seen l → key a ∉ seen := by
  intro seen l
  induction l generalizing seen with
  | nil => intro a h; simp [dedupByAux] at h
  | cons b rest ih =>
    intro a h
    simp only [dedupByAux] at h
    by_cases hb : key b ∈ seen
    · simp only [hb, if_true] at h
      exact ih seen a h
    · simp only [hb, if_false, List.mem_cons] at h
      rcases h with h | h
      · exact h ▸ hb
      · have := ih (key b :: seen) a h
        intro hc
        exact this (List.mem_cons_of_mem _ hc)

/-- The rows kept by `dedupByAux` have pairwise distinct keys. -/
theorem dedupByAux_pairwise {α β : Type} [DecidableEq β] (key : α → β) :
    ∀ (seen : List β) (l : List α),
      (dedupByAux key seen l).Pairwise fun a b => key a ≠ key b := by
  intro seen l
  induction l generalizing seen with
  | nil => simp [dedupByAux]
  | cons b rest ih =>
    simp only [dedupByAux]
    by_cases hb : key b ∈ seen
    · simpa [hb] using ih seen
    · simp only [hb, if_false]
      refine List.Pairwise.cons ?_ (ih (key b :: seen))
      intro a ha
      have := dedupByAux_not_seen key (key b :: seen) rest a ha
      intro hc
      exact this (hc ▸ List.mem_cons_self _ _)

/-- `dedupBy` keeps the key set of its input. -/
theorem dedupBy_key_mem_iff {α β : Type} [DecidableEq β] (key : α → β) (l : List α) (k : β) :
    k ∈ (dedupBy key l).map key ↔ k ∈ l.map key := by
  constructor
  · intro h
    rcases List.mem_map.mp h with ⟨a, ha, rfl⟩
    exact List.mem_map.mpr ⟨a, dedupByAux_mem key [] l a ha, rfl⟩
  · intro h
    exact dedupByAux_key_mem key [] l k h (by simp)

/-- In a list with pairwise distinct keys, each key matches at most one row. -/
theorem pairwise_key_filter_length_le {α β : Type} [DecidableEq β] (key : α → β) (k : β) :
    ∀ l : List α, (l.Pairwise fun a b => key a ≠ key b) →
      (l.filter fun a => decide (key a = k)).length ≤ 1 := by
  intro l
  induction l with
  | nil => intro; simp
  | cons b rest ih =>
    intro hp
    rcases List.pairwise_cons.mp hp with ⟨hb, hrest⟩
    by_cases hk : key b = k
    · have hempty : rest.filter (fun a => decide (key a = k)) = [] := by
        apply List.filter_eq_nil_iff.mpr
        intro a ha
        simp only [decide_eq_true_eq]
        intro hak
        exact hb a ha (by rw [hk, hak])
      simp [List.filter_cons, hk, hempty]
    · have hf : decide (key b = k) = false := by simp [hk]
      simp only [List.filter_cons, hf, Bool.false_eq_true, if_false]
      exact ih hrest

/-- C1: for every crime identifier c and route identifier r, the combined
association table produced by the spatial-association stage of
etl_master.analyze_and_aggregate contains at most one row whose
(crime_data_id, Route No) pair is (c, r), whichever of the two methods
produced that pair. -/
theorem c1_no_duplicate_pairs (inter cont : Nat → Nat → Bool) (crimes : List CrimeRow)
    (routes : List RouteRow) (stops : List StopRow) (c : Nat) (r : String) :
    ((etlCombined inter cont crimes routes stops).filter
      fun a => a.crime_data_id == c && a.routeNo == r).length ≤ 1 := by
  have hpair :=
    pairwise_key_filter_length_le assocPair (c, r)
      (etlCombined inter cont crimes routes stops)
      (by unfold etlCombined dedupBy; exact dedupByAux_pairwise _ _ _)
  have heq : ((etlCombined inter cont crimes routes stops).filter
        fun a => a.crime_data_id == c && a.routeNo == r)
      = ((etlCombined inter cont crimes routes stops).filter
        fun a => decide (assocPair a = (c, r))) := by
    apply List.filter_congr
    intro a _
    rw [Bool.eq_iff_iff]
    simp [assocPair, Prod.ext_iff]
  rw [heq]
  exact hpair

/-- Membership in a full-row deduplication is membership in the input. -/
theorem dedupBy_id_mem {α : Type} [DecidableEq α] (l : List α) (a : α) :
    a ∈ dedupBy id l ↔ a ∈ l := by
  constructor
  · exact dedupByAux_mem id [] l a
  · intro h
    have := (dedupBy_key_mem_iff id l a).mpr (by simpa using h)
    simpa using this

/-- The stop-containment method of etl_master.py lines 358-373 draws its route
candidates from line_join, so the combined table's (crime, route) pair set is
exactly the line-intersection pair set. -/
theorem combinedPairs_eq_linePairs (inter cont : Nat → Nat → Bool) (crimes : List CrimeRow)
    (routes : List RouteRow) (stops : List StopRow) (p : Nat × String) :
    p ∈ etlCombinedPairs inter cont crimes routes stops ↔
      p ∈ etlLinePairs inter crimes routes := by
  constructor
  · intro hp
    rcases List.mem_map.mp hp with ⟨a, ha, rfl⟩
    have ha2 : a ∈ etlLineJoinDedup inter crimes routes
        ++ etlStopRouteJoin inter cont crimes routes stops :=
      dedupByAux_mem assocPair [] _ a ha
    rcases List.mem_append.mp ha2 with h | h
    · exact List.mem_map.mpr ⟨a, (dedupBy_id_mem _ a).mp h, rfl⟩
    · have h2 := dedupByAux_mem assocPair [] _ a h
      exact List.mem_map.mpr ⟨a, List.mem_of_mem_filter h2, rfl⟩
  · intro hp
    rcases List.mem_map.mp hp with ⟨a, ha, rfl⟩
    have h1 : a ∈ etlLineJoinDedup inter crimes routes := (dedupBy_id_mem _ a).mpr ha
    have h2 : assocPair a ∈ (etlLineJoinDedup inter crimes routes
        ++ etlStopRouteJoin inter cont crimes routes stops).map assocPair :=
      List.mem_map.mpr ⟨a, List.mem_append_left _ h1, rfl⟩
    exact (dedupBy_key_mem_iff assocPair _ (assocPair a)).mpr h2

/-- C2 counterexample: one crime polygon, one route line that does not
intersect it, one stop contained in the polygon. The stop join fires, yet the
combined association table is empty: the pair (crime, route) required by the
claim is absent, and the combined set does not exceed the line-only set. -/
theorem c2_counterexample :
    etlStopJoin (fun _ _ => true) [sampleCrime] [sampleStop] = [(0, "0000001", 5)] ∧
    etlCombined (fun _ _ => false) (fun _ _ => true) [sampleCrime] [sampleRoute] [sampleStop]
      = [] ∧
    etlCombinedPairs (fun _ _ => false) (fun _ _ => true) [sampleCrime] [sampleRoute] [sampleStop]
      = etlLinePairs (fun _ _ => false) [sampleCrime] [sampleRoute] := by
  exact ⟨by decide, by decide, by decide⟩

/-- C2 (amended): in etl_master.analyze_and_aggregate the stop method only
re-confirms pairs already produced by line intersection (it filters line_join
rows to meshblocks containing a stop and never consults stop-to-route
membership), so the combined association pair set always equals the
line-method-only pair set; a crime polygon that contains a stop of route R but
does not intersect R's line yields no (crime, R) pair. -/
theorem c2_amended_stop_method_adds_no_pairs (inter cont : Nat → Nat → Bool)
    (crimes : List CrimeRow) (routes : List RouteRow) (stops : List StopRow)
    (p : Nat × String) :
    p ∈ etlCombinedPairs inter cont crimes routes stops ↔
      p ∈ etlLinePairs inter crimes routes :=
  combinedPairs_eq_linePairs inter cont crimes routes stops p

/-- C7: the final association pair set contains every pair the
line-intersection method alone produces; adding the stop method never removes
a line-intersection pair. -/
theorem c7_association_monotonicity (inter cont : Nat → Nat → Bool)
    (crimes : List CrimeRow) (routes : List RouteRow) (stops : List StopRow)
    (p : Nat × String) (hp : p ∈ etlLinePairs inter crimes routes) :
    p ∈ etlCombinedPairs inter cont crimes routes stops :=
  (combinedPairs_eq_linePairs inter cont crimes routes stops p).mpr hp

/-- C7 witness: a concrete line-intersection pair that is indeed in the
combined pair set. -/
theorem c7_witness :
    ((0, "R1") : Nat × String) ∈
      etlCombinedPairs (fun _ _ => true) (fun _ _ => true)
        [sampleCrime] [sampleRoute] [sampleStop] :=
  c7_association_monotonicity (fun _ _ => true) (fun _ _ => true)
    [sampleCrime] [sampleRoute] [sampleStop] (0, "R1") (by decide)

/-- The head of an append with a nonempty left part. -/
theorem head?_append_left {α : Type} (x y : List α) (h : x ≠ []) :
    (x ++ y).head? = x.head? := by
  cases x with
  | nil => exact absurd rfl h
  | cons a t => rfl

/-- A list whose first and last characters are not whitespace is unchanged by
`pyStrip`. -/
theorem pyStrip_eq_self {m : List Char}
    (h1 : ∀ c, m.head? = some c → isPySpace c = false)
    (h2 : ∀ c, m.getLast? = some c → isPySpace c = false) :
    pyStrip m = m := by
  have hd : m.dropWhile isPySpace = m := by
    cases m with
    | nil => rfl
    | cons c t =>
      have hc := h1 c rfl
      simp [List.dropWhile_cons, hc]
  have hr : List.rdropWhile isPySpace m = m := by
    apply List.rdropWhile_eq_self_iff.mpr
    intro hm
    have hc := h2 (m.getLast hm) (List.getLast?_eq_getLast m hm)
    simp [hc]
  unfold pyStrip
  rw [hd, hr]

/-- The first character of a stripped list is not whitespace. -/
theorem pyStrip_head_not (l : List Char) (c : Char)
    (h : (pyStrip l).head? = some c) : isPySpace c = false := by
  obtain ⟨t, ht⟩ := List.rdropWhile_prefix isPySpace (l.dropWhile isPySpace)
  have ht2 : pyStrip l ++ t = l.dropWhile isPySpace := ht
  have hsne : pyStrip l ≠ [] := by
    intro he
    rw [he] at h
    simp at h
  have hh : (l.dropWhile isPySpace).head? = some c := by
    rw [← ht2, head?_append_left _ _ hsne]
    exact h
  have hne : l.dropWhile isPySpace ≠ [] := by
    intro he
    rw [he] at hh
    simp at hh
  have hnot := List.head_dropWhile_not isPySpace l hne
  have hch : (l.dropWhile isPySpace).head hne = c := by
    have h3 := List.head?_eq_head hne
    rw [h3] at hh
    exact Option.some.inj hh
  rw [hch] at hnot
  exact hnot

/-- The last character of a stripped list is not whitespace. -/
theorem pyStrip_getLast_not (l : List Char) (c : Char)
    (h : (pyStrip l).getLast? = some c) : isPySpace c = false := by
  have hne : pyStrip l ≠ [] := by
    intro he
    rw [he] at h
    simp at h
  have hlast : ¬ isPySpace ((pyStrip l).getLast hne) = true :=
    List.rdropWhile_last_not isPySpace (l.dropWhile isPySpace) hne
  have heq : (pyStrip l).getLast hne = c := by
    have h2 := List.getLast?_eq_getLast (pyStrip l) hne
    rw [h2] at h
    exact Option.some.inj h
  rw [heq] at hlast
  simpa using hlast

/-- `pyStrip` is idempotent. -/
theorem pyStrip_idem (l : List Char) : pyStrip (pyStrip l) = pyStrip l :=
  pyStrip_eq_self (pyStrip_head_not l) (pyStrip_getLast_not l)

/-- Zero padding of positive length starts with the padding character. -/
theorem head?_replicate_zero (k : Nat) (h : k ≠ 0) :
    (List.replicate k '0').head? = some '0' := by
  cases k with
  | zero => exact absurd rfl h
  | succ n => rfl

/-- Zero padding of positive length ends with the padding character. -/
theorem getLast?_replicate_zero (k : Nat) (h : k ≠ 0) :
    (List.replicate k '0').getLast? = some '0' := by
  cases k with
  | zero => exact absurd rfl h
  | succ n =>
    rw [List.replicate_succ']
    exact List.getLast?_concat _

/-- `pyZfill w l = l` once the list is already at least `w` long. -/
theorem pyZfill_of_le (w : Nat) (l : List Char) (h : w ≤ l.length) :
    pyZfill w l = l := by
  unfold pyZfill
  rw [if_pos h]

/-- Applied to a list with non-whitespace ends, `pyZfill 7` yields a list with
non-whitespace ends (the padding is the character 0) of length at least 7; in
particular the result is a fixed point of `pyStrip`. -/
theorem pyZfill_seven_clean (t : List Char)
    (hh : ∀ c, t.head? = some c → isPySpace c = false)
    (hg : ∀ c, t.getLast? = some c → isPySpace c = false) :
    pyStrip (pyZfill 7 t) = pyZfill 7 t ∧ 7 ≤ (pyZfill 7 t).length := by
  by_cases h7 : 7 ≤ t.length
  · rw [pyZfill_of_le 7 t h7]
    exact ⟨pyStrip_eq_self hh hg, h7⟩
  · cases t with
    | nil =>
      constructor
      · decide
      · decide
    | cons c rest =>
      have hk : 7 - (rest.length + 1) ≠ 0 := by
        simp only [List.length_cons] at h7
        omega
      have hpadne : List.replicate (7 - (rest.length + 1)) '0' ≠ [] := by
        simp only [ne_eq, List.replicate_eq_nil_iff]
        exact hk
      by_cases hsign : (c == '+' || c == '-') = true
      · have hz : pyZfill 7 (c :: rest)
            = c :: (List.replicate (7 - (rest.length + 1)) '0' ++ rest) := by
          simp only [pyZfill, if_neg h7]
          rw [if_pos hsign]
        rw [hz]
        have hcns : isPySpace c = false := hh c rfl
        constructor
        · apply pyStrip_eq_self
          · intro d hd
            simp only [List.head?_cons, Option.some.injEq] at hd
            rw [← hd]
            exact hcns
          · intro d hd
            cases rest with
            | nil =>
              rw [List.append_nil] at hd
              rw [show (c :: List.replicate (7 - (List.length ([] : List Char) + 1)) '0')
                    = [c] ++ List.replicate (7 - (List.length ([] : List Char) + 1)) '0'
                  from rfl] at hd
              rw [List.getLast?_append_of_ne_nil [c] hpadne] at hd
              rw [getLast?_replicate_zero _ hk] at hd
              have hd2 : d = '0' := (Option.some.inj hd).symm
              rw [hd2]
              decide
            | cons e u =>
              rw [show (c :: (List.replicate (7 - (List.length (e :: u) + 1)) '0' ++ (e :: u)))
                    = (c :: List.replicate (7 - (List.length (e :: u) + 1)) '0') ++ (e :: u)
                  from rfl] at hd
              rw [List.getLast?_append_of_ne_nil _ (by simp)] at hd
              apply hg d
              rw [List.getLast?_cons_cons]
              exact hd
        · simp only [List.length_cons, List.length_append, List.length_replicate] at h7 ⊢
          omega
      · have hz : pyZfill 7 (c :: rest)
            = List.replicate (7 - (rest.length + 1)) '0' ++ (c :: rest) := by
          simp only [pyZfill, if_neg h7]
          rw [if_neg hsign]
        rw [hz]
        constructor
        · apply pyStrip_eq_self
          · intro d hd
            rw [head?_append_left _ _ hpadne] at hd
            rw [head?_replicate_zero _ hk] at hd
            have hd2 : d = '0' := (Option.some.inj hd).symm
            rw [hd2]
            decide
          · intro d hd
            rw [List.getLast?_append_of_ne_nil _ (by simp)] at hd
            exact hg d hd
        · simp only [List.length_cons, List.length_append, List.length_replicate] at h7 ⊢
          omega

/-- The etl_master key normalization (strip, then zero-fill to width 7) is
idempotent on every character list. -/
theorem etlNormKey_idem (l : List Char) :
    pyZfill 7 (pyStrip (pyZfill 7 (pyStrip l))) = pyZfill 7 (pyStrip l) := by
  obtain ⟨hs, hl⟩ :=
    pyZfill_seven_clean (pyStrip l) (pyStrip_head_not l) (pyStrip_getLast_not l)
  rw [hs]
  exact pyZfill_of_le 7 _ hl

/-- C3 counterexample: the key normalization of elt_master.py (lines 103 and
159, strip without zero-fill) does not map the raw keys "123" and "0000123" —
the same logical area at different raw widths — to one identical fixed-width
key, so the claim fails on the elt_master.py normalization it cites. -/
theorem c3_counterexample :
    eltCrimeKeyNorm "123" ≠ eltCrimeKeyNorm "0000123" ∧
    eltCrimeKeyNorm "123" = "123" ∧ eltCrimeKeyNorm "0000123" = "0000123" := by
  exact ⟨by decide, by decide, by decide⟩

/-- C3 (amended): in etl_master.py the area-key normalization (strip then
zero-fill to width 7) is idempotent, maps "123" and "0000123" to the identical
fixed-width key "0000123", and the identical function is applied to the crime
records' keys (line 204) and to the reference geometry table's keys (line 147)
before the join. In elt_master.py both sides are normalized by the identical
whitespace-strip (lines 103 and 159), which is idempotent, but raw keys of
different lengths are not unified there. -/
theorem c3_amended_key_normalization :
    (∀ s, etlCrimeKeyNorm (etlCrimeKeyNorm s) = etlCrimeKeyNorm s) ∧
    etlCrimeKeyNorm "123" = etlCrimeKeyNorm "0000123" ∧
    etlCrimeKeyNorm "123" = "0000123" ∧
    (∀ s, etlCrimeKeyNorm s = etlMeshblockKeyNorm s) ∧
    (∀ s, eltCrimeKeyNorm (eltCrimeKeyNorm s) = eltCrimeKeyNorm s) ∧
    (∀ s, eltCrimeKeyNorm s = eltMeshblockKeyNorm s) := by
  refine ⟨fun s => ?_, by decide, by decide, fun s => rfl, fun s => ?_, fun s => rfl⟩
  · show (⟨pyZfill 7 (pyStrip (pyZfill 7 (pyStrip s.data)))⟩ : String)
        = ⟨pyZfill 7 (pyStrip s.data)⟩
    rw [etlNormKey_idem]
  · show (⟨pyStrip (pyStrip s.data)⟩ : String) = ⟨pyStrip s.data⟩
    rw [pyStrip_idem]

/-- Counting occurrences in a list with one more element in front. -/
theorem countEq_cons {α : Type} [DecidableEq α] (a : α) (l : List α) (m : α) :
    ((a :: l).filter fun x => decide (x = m)).length
      = (l.filter fun x => decide (x = m)).length + if a = m then 1 else 0 := by
  by_cases h : a = m
  · simp [List.filter_cons, h]
  · simp [List.filter_cons, h]

/-- Sums of pointwise sums split. -/
theorem sum_map_add_split {α : Type} (f g : α → Nat) (l : List α) :
    (l.map fun x => f x + g x).sum = (l.map f).sum + (l.map g).sum := by
  induction l with
  | nil => rfl
  | cons a t ih =>
    simp only [List.map_cons, List.sum_cons, ih]
    omega

/-- Over a duplicate-free list containing `a`, the indicator of `a` sums to one. -/
theorem sum_map_indicator {α : Type} [DecidableEq α] (a : α) :
    ∀ L : List α, L.Nodup → a ∈ L →
      (L.map fun m => if a = m then 1 else 0).sum = 1 := by
  intro L
  induction L with
  | nil => intro _ had; simp at had
  | cons b u ihu =>
    intro hnd had
    rcases List.nodup_cons.mp hnd with ⟨hbu, hnu⟩
    rcases List.mem_cons.mp had with h | h
    · subst h
      have hz : (u.map fun m => if a = m then 1 else 0).sum = 0 := by
        apply List.sum_eq_zero
        intro x hx
        rcases List.mem_map.mp hx with ⟨m, hm, rfl⟩
        have hne : a ≠ m := fun he => hbu (he ▸ hm)
        simp [hne]
      simp [hz]
    · have hne : a ≠ b := fun he => hbu (he ▸ h)
      simp only [List.map_cons, List.sum_cons, if_neg hne]
      rw [ihu hnu h]

/-- Group sizes over the distinct values of a list add up to its length. -/
theorem sum_countEq_dedup {α : Type} [DecidableEq α] (l : List α) :
    ((l.dedup).map fun m => (l.filter fun x => decide (x = m)).length).sum = l.length := by
  induction l with
  | nil => rfl
  | cons a t ih =>
    have hsplit : ∀ L : List α,
        (L.map fun m => ((a :: t).filter fun x => decide (x = m)).length).sum
          = (L.map fun m => (t.filter fun x => decide (x = m)).length).sum
            + (L.map fun m => if a = m then 1 else 0).sum := by
      intro L
      rw [← sum_map_add_split]
      apply congrArg
      apply List.map_congr_left
      intro m _
      rw [countEq_cons]
    by_cases hmem : a ∈ t
    · have hone : (t.dedup.map fun m => if a = m then 1 else 0).sum = 1 :=
        sum_map_indicator a t.dedup (List.nodup_dedup t) (List.mem_dedup.mpr hmem)
      rw [List.dedup_cons_of_mem hmem, hsplit t.dedup, ih, hone]
      simp
    · have hta : (t.filter fun x => decide (x = a)).length = 0 := by
        have hnil : t.filter (fun x => decide (x = a)) = [] := by
          apply List.filter_eq_nil_iff.mpr
          intro x hx
          simp only [decide_eq_true_eq]
          intro he
          exact hmem (he ▸ hx)
        rw [hnil]
        rfl
      have hzero : (t.dedup.map fun m => if a = m then 1 else 0).sum = 0 := by
        apply List.sum_eq_zero
        intro x hx
        rcases List.mem_map.mp hx with ⟨m, hm, rfl⟩
        have hne : a ≠ m := by
          intro he
          exact hmem (List.mem_dedup.mp (he ▸ hm))
        simp [hne]
      rw [List.dedup_cons_of_not_mem hmem]
      simp only [List.map_cons, List.sum_cons]
      rw [countEq_cons, hta, hsplit t.dedup, ih, hzero, if_pos rfl]
      simp only [List.length_cons]
      omega

/-- The kept entries of `filterMap` are counted by the `isSome` filter. -/
theorem length_filterMap_eq {α β : Type} (f : α → Option β) (l : List α) :
    (l.filterMap f).length = (l.filter fun a => (f a).isSome).length := by
  induction l with
  | nil => rfl
  | cons a t ih =>
    cases hf : f a with
    | none => simp [List.filterMap_cons, List.filter_cons, hf, ih]
    | some b => simp [List.filterMap_cons, List.filter_cons, hf, ih]

/-- A filter keeps the whole list exactly when every element passes. -/
theorem length_filter_eq_length_iff {α : Type} (p : α → Bool) (l : List α) :
    (l.filter p).length = l.length ↔ ∀ a ∈ l, p a = true := by
  induction l with
  | nil => simp
  | cons a t ih =>
    cases hp : p a with
    | true => simp [List.filter_cons, hp, ih]
    | false =>
      simp only [List.filter_cons, hp, Bool.false_eq_true, if_false, List.length_cons]
      constructor
      · intro h
        have := List.length_filter_le p t
        omega
      · intro h
        have := h a (List.mem_cons_self a t)
        rw [hp] at this
        simp at this

/-- Rows passing a filter and rows failing it partition the list. -/
theorem length_filter_add_not {α : Type} (p : α → Bool) (l : List α) :
    (l.filter p).length + (l.filter fun a => !(p a)).length = l.length := by
  induction l with
  | nil => rfl
  | cons a t ih =>
    cases hp : p a with
    | true =>
      simp only [List.filter_cons, hp, Bool.not_true, Bool.false_eq_true, if_false,
        if_pos, List.length_cons]
      omega
    | false =>
      simp only [List.filter_cons, hp, Bool.not_false, Bool.false_eq_true, if_false,
        if_pos, List.length_cons]
      omega

/-- The monthly-trend histogram counts exactly the valid-month rows. -/
theorem trend_sum_eq (rows : List CCRow) :
    ((etlMonthlyTrend rows).map Prod.snd).sum = (rows.filterMap (·.CrimeMonth)).length := by
  unfold etlMonthlyTrend
  rw [List.map_map]
  exact sum_countEq_dedup _

/-- The type-breakdown histogram counts exactly the valid-offence rows. -/
theorem breakdown_sum_eq (rows : List CCRow) :
    ((etlTypeBreakdown rows).map Prod.snd).sum = (rows.filterMap (·.OffenceType)).length := by
  unfold etlTypeBreakdown
  rw [List.map_map]
  exact sum_countEq_dedup _

/-- C4 counterexample: a crime row whose month is missing/unparseable but
whose district, geometry and offence type are all valid survives the Auckland
filter of elt_master.py, yet line 205 drops it before association, so it
contributes to no route's total count — contradicting the claim that such a
crime still counts toward the total. -/
theorem c4_counterexample :
    rowMissingMonth.CrimeMonth = none ∧
    (eltAuckland (eltMerged [rowMissingMonth] sampleMbTable)).length = 1 ∧
    eltFinalCrimes [rowMissingMonth] sampleMbTable = [] ∧
    eltRouteTotal
      (eltCrimeCounts (fun _ _ => true) (eltFinalCrimes [rowMissingMonth] sampleMbTable)
        [sampleRoute]) 0 = 0 := by
  exact ⟨by decide, by decide, by decide, by decide⟩

/-- An entry of total_crime_summary records exactly the route's row count. -/
theorem totalSummary_mem_eq (cc : List CCRow) (rid n : Nat)
    (h : (rid, n) ∈ etlTotalCrimeSummary cc) :
    n = (etlRouteRows cc rid).length := by
  rcases List.mem_map.mp h with ⟨r, _, he⟩
  simp only [Prod.mk.injEq] at he
  obtain ⟨h1, h2⟩ := he
  subst h1
  exact h2.symm

/-- C4 (amended): in etl_master.analyze_and_aggregate, for every route the sum
of the monthly-trend counts is at most the route's total crime count, with
equality exactly when every associated crime of that route has a valid month —
a crime with a missing month is excluded from the trend but still counted in
the total. In elt_master.py, by contrast, every crime that reaches association
already has a valid month (missing-month rows are dropped during cleaning and
count toward nothing). -/
theorem c4_amended_trend_total_consistency (cc : List CCRow) (rid n : Nat)
    (rows : List CrimeCSVRow) (mbTable : List (String × Nat))
    (hn : (rid, n) ∈ etlTotalCrimeSummary cc) :
    ((etlMonthlyTrend (etlRouteRows cc rid)).map Prod.snd).sum ≤ n ∧
    (((etlMonthlyTrend (etlRouteRows cc rid)).map Prod.snd).sum = n ↔
      ∀ x ∈ etlRouteRows cc rid, x.CrimeMonth.isSome = true) ∧
    ∀ x ∈ eltFinalCrimes rows mbTable, x.1.CrimeMonth.isSome = true := by
  obtain rfl : n = (etlRouteRows cc rid).length := totalSummary_mem_eq cc rid n hn
  refine ⟨?_, ?_, ?_⟩
  · rw [trend_sum_eq]
    exact List.length_filterMap_le _ _
  · rw [trend_sum_eq, length_filterMap_eq]
    exact length_filter_eq_length_iff _ _
  · intro x hx
    have hb := (List.mem_filter.mp hx).2
    simp only [Bool.and_eq_true] at hb
    exact hb.1.2

/-- C4 witness: the amended statement instantiated at concrete inputs. -/
theorem c4_witness :
    ((etlMonthlyTrend (etlRouteRows sampleCC 0)).map Prod.snd).sum ≤ 1 ∧
    (((etlMonthlyTrend (etlRouteRows sampleCC 0)).map Prod.snd).sum = 1 ↔
      ∀ x ∈ etlRouteRows sampleCC 0, x.CrimeMonth.isSome = true) ∧
    ∀ x ∈ eltFinalCrimes [rowComplete] sampleMbTable, x.1.CrimeMonth.isSome = true :=
  c4_amended_trend_total_consistency sampleCC 0 1 [rowComplete] sampleMbTable (by decide)

/-- C6 counterexample: a crime row with a missing offence category but valid
district, geometry and month survives the Auckland filter of elt_master.py,
yet line 205 drops it before association, so it is excluded from that route's
total count as well — contradicting the claim that it is still counted. -/
theorem c6_counterexample :
    rowMissingOffence.OffenceType = none ∧
    (eltAuckland (eltMerged [rowMissingOffence] sampleMbTable)).length = 1 ∧
    eltFinalCrimes [rowMissingOffence] sampleMbTable = [] ∧
    eltRouteTotal
      (eltCrimeCounts (fun _ _ => true) (eltFinalCrimes [rowMissingOffence] sampleMbTable)
        [sampleRoute]) 0 = 0 := by
  exact ⟨by decide, by decide, by decide, by decide⟩

/-- C6 (amended): in etl_master.analyze_and_aggregate the offence-type
breakdown of a route groups that route's associated crimes by offence
category (each entry's count is the number of that route's rows carrying that
category, and every present category appears), rows with a missing category
are excluded from the breakdown yet still counted in the total (breakdown sum
plus missing-category rows equals the total row count). In elt_master.py a
crime with a missing category is instead dropped during cleaning and counts
toward nothing. -/
theorem c6_amended_type_breakdown (cc : List CCRow) (rid n : Nat)
    (rows : List CrimeCSVRow) (mbTable : List (String × Nat))
    (hn : (rid, n) ∈ etlTotalCrimeSummary cc) :
    (∀ p ∈ etlTypeBreakdown (etlRouteRows cc rid),
        p.2 = (((etlRouteRows cc rid).filterMap (·.OffenceType)).filter
          fun x => decide (x = p.1)).length) ∧
    (∀ x ∈ etlRouteRows cc rid, ∀ c, x.OffenceType = some c →
        c ∈ (etlTypeBreakdown (etlRouteRows cc rid)).map Prod.fst) ∧
    ((etlTypeBreakdown (etlRouteRows cc rid)).map Prod.snd).sum
        + ((etlRouteRows cc rid).filter fun x => !(x.OffenceType.isSome)).length
      = n ∧
    ∀ x ∈ eltFinalCrimes rows mbTable, x.1.OffenceType.isSome = true := by
  obtain rfl : n = (etlRouteRows cc rid).length := totalSummary_mem_eq cc rid n hn
  refine ⟨?_, ?_, ?_, ?_⟩
  · intro p hp
    rcases List.mem_map.mp hp with ⟨m, hm, rfl⟩
    rfl
  · intro x hx c hc
    have hmem : c ∈ (etlRouteRows cc rid).filterMap (·.OffenceType) :=
      List.mem_filterMap.mpr ⟨x, hx, hc⟩
    have hdedup : c ∈ ((etlRouteRows cc rid).filterMap (·.OffenceType)).dedup :=
      List.mem_dedup.mpr hmem
    unfold etlTypeBreakdown
    rw [List.map_map]
    exact List.mem_map.mpr ⟨c, hdedup, rfl⟩
  · rw [breakdown_sum_eq, length_filterMap_eq]
    exact length_filter_add_not _ _
  · intro x hx
    have hb := (List.mem_filter.mp hx).2
    simp only [Bool.and_eq_true] at hb
    exact hb.2

/-- C6 witness: the amended statement instantiated at concrete inputs. -/
theorem c6_witness :
    (∀ p ∈ etlTypeBreakdown (etlRouteRows sampleCC 0),
        p.2 = (((etlRouteRows sampleCC 0).filterMap (·.OffenceType)).filter
          fun x => decide (x = p.1)).length) ∧
    (∀ x ∈ etlRouteRows sampleCC 0, ∀ c, x.OffenceType = some c →
        c ∈ (etlTypeBreakdown (etlRouteRows sampleCC 0)).map Prod.fst) ∧
    ((etlTypeBreakdown (etlRouteRows sampleCC 0)).map Prod.snd).sum
        + ((etlRouteRows sampleCC 0).filter fun x => !(x.OffenceType.isSome)).length
      = 1 ∧
    ∀ x ∈ eltFinalCrimes [rowComplete] [("0000001", 2)], x.1.OffenceType.isSome = true :=
  c6_amended_type_breakdown sampleCC 0 1 [rowComplete] [("0000001", 2)] (by decide)

/-- C5: with zero crime records, analyze_and_aggregate still produces both
artifacts — every route appears in the GeoJSON rows with total count 0, the
detail map is empty and both period endpoints are the "N/A" sentinel; and
whenever no associated crime has a valid month (including zero associations),
both period endpoints are reported as a not-available sentinel rather than a
date value. -/
theorem c5_empty_input_closure (inter cont : Nat → Nat → Bool) (routes : List RouteRow)
    (crimes : List CrimeRow) (stops : List StopRow) :
    (crimes = [] →
      etlAnalyzeAndAggregate inter cont routes crimes stops =
        { geo := routes.map fun r => (r.routeNo, 0),
          periodStart := DateVal.na "N/A", periodEnd := DateVal.na "N/A",
          detailRoutes := [] }) ∧
    ((etlCrimeCounts inter cont crimes routes stops).filterMap (·.CrimeMonth) = [] →
      (∃ m1, (etlAnalyzeAndAggregate inter cont routes crimes stops).periodStart
          = DateVal.na m1) ∧
      (∃ m2, (etlAnalyzeAndAggregate inter cont routes crimes stops).periodEnd
          = DateVal.na m2)) := by
  constructor
  · intro hc
    subst hc
    rfl
  · intro hv
    unfold etlAnalyzeAndAggregate
    by_cases hc : crimes.isEmpty
    · rw [if_pos hc]
      exact ⟨⟨"N/A", rfl⟩, ⟨"N/A", rfl⟩⟩
    · rw [if_neg hc]
      by_cases hcc : (etlCrimeCounts inter cont crimes routes stops).isEmpty
      · rw [if_pos hcc]
        exact ⟨⟨"N/A", rfl⟩, ⟨"N/A", rfl⟩⟩
      · rw [if_neg hcc]
        unfold etlDateRange
        rw [hv]
        exact ⟨⟨"N/A (All dates invalid)", rfl⟩, ⟨"N/A (All dates invalid)", rfl⟩⟩

/-- C5 witness: the statement instantiated at a concrete empty crime input. -/
theorem c5_witness :
    etlAnalyzeAndAggregate (fun _ _ => true) (fun _ _ => true) [sampleRoute] [] [] =
      { geo := [sampleRoute].map fun r => (r.routeNo, 0),
        periodStart := DateVal.na "N/A", periodEnd := DateVal.na "N/A",
        detailRoutes := [] } ∧
    ((∃ m1, (etlAnalyzeAndAggregate (fun _ _ => true) (fun _ _ => true)
        [sampleRoute] [] []).periodStart = DateVal.na m1) ∧
     (∃ m2, (etlAnalyzeAndAggregate (fun _ _ => true) (fun _ _ => true)
        [sampleRoute] [] []).periodEnd = DateVal.na m2)) :=
  ⟨(c5_empty_input_closure (fun _ _ => true) (fun _ _ => true) [sampleRoute] [] []).1 rfl,
   (c5_empty_input_closure (fun _ _ => true) (fun _ _ => true) [sampleRoute] [] []).2
     (by decide)⟩

/-- C8: if the crime input's cleaned column names lack the mandatory
`Year Month` column, or lack both a `Meshblock` column and any meshblock-like
column, run_etl aborts with exit status 1 and a diagnostic naming the missing
requirement instead of attempting partial processing. -/
theorem c8_fatal_schema_errors (url : String) (cols : List String) :
    (url ≠ "" → "Year Month" ∉ etlCleanColumns cols →
      run_etl_schema (some url) cols =
        Except.error (1, "Required \x27Year Month\x27 column not found.")) ∧
    (url ≠ "" → "Year Month" ∈ etlCleanColumns cols → "Meshblock" ∉ etlCleanColumns cols →
      (etlCleanColumns cols).filter lowerHasMeshblock = [] →
      run_etl_schema (some url) cols =
        Except.error (1, "Required \x27Meshblock\x27 column not found.")) := by
  constructor
  · intro h1 h2
    have hres : etlResolveSchema cols
        = Except.error "Required \x27Year Month\x27 column not found." := by
      unfold etlResolveSchema
      rw [if_neg h2]
    unfold run_etl_schema
    rw [hres]
    simp [h1]
  · intro h1 h2 h3 h4
    have hres : etlResolveSchema cols
        = Except.error "Required \x27Meshblock\x27 column not found." := by
      unfold etlResolveSchema
      rw [if_pos h2, if_neg h3, h4]
    unfold run_etl_schema
    rw [hres]
    simp [h1]

/-- C8 witness: two concrete malformed inputs hitting both fatal paths. -/
theorem c8_witness :
    run_etl_schema (some "u") ["Offence", "Area"] =
      Except.error (1, "Required \x27Year Month\x27 column not found.") ∧
    run_etl_schema (some "u") ["Year Month", "Area"] =
      Except.error (1, "Required \x27Meshblock\x27 column not found.") :=
  ⟨(c8_fatal_schema_errors "u" ["Offence", "Area"]).1 (by decide) (by decide),
   (c8_fatal_schema_errors "u" ["Year Month", "Area"]).2 (by decide) (by decide)
     (by decide) (by decide)⟩

/-- C9 counterexample: on a routes table already in EPSG:4326, both scripts'
empty_geojson_output assign the `Total_Crime_Count` column into the caller's
routes table, so the analysis/output stage does mutate its input collection. -/
theorem c9_counterexample :
    (elt_empty_geojson_output sampleRoutesTable).1 ≠ sampleRoutesTable ∧
    (etl_empty_geojson_output sampleRoutesTable).1 ≠ sampleRoutesTable := by
  exact ⟨by decide, by decide⟩

/-- C9 (amended): the empty-output stage is the exception to input
read-onlyness: etl_master's empty_geojson_output leaves the caller's routes
table unchanged exactly when its CRS differs from EPSG:4326 (the `to_crs`
rebinding shields the caller), and otherwise adds a `Total_Crime_Count` column
with value 0 to the caller's table; elt_master's version always adds that
column to the caller's table. -/
theorem c9_amended_empty_output_mutation (t : RoutesTable) :
    (t.crs ≠ "EPSG:4326" → (etl_empty_geojson_output t).1 = t) ∧
    (t.crs = "EPSG:4326" →
      (etl_empty_geojson_output t).1 = { t with totalCrimeCountCol := some 0 }) ∧
    (elt_empty_geojson_output t).1 = { t with totalCrimeCountCol := some 0 } := by
  refine ⟨?_, ?_, rfl⟩
  · intro h
    unfold etl_empty_geojson_output
    rw [if_pos h]
  · intro h
    unfold etl_empty_geojson_output
    rw [if_neg (by simp [h])]

/-- C9 witness: the amended statement at concrete tables in both CRS cases. -/
theorem c9_witness :
    (etl_empty_geojson_output sampleRoutesTableProj).1 = sampleRoutesTableProj ∧
    (etl_empty_geojson_output sampleRoutesTable).1
      = { sampleRoutesTable with totalCrimeCountCol := some 0 } ∧
    (elt_empty_geojson_output sampleRoutesTable).1
      = { sampleRoutesTable with totalCrimeCountCol := some 0 } :=
  ⟨(c9_amended_empty_output_mutation sampleRoutesTableProj).1 (by decide),
   (c9_amended_empty_output_mutation sampleRoutesTable).2.1 (by decide),
   (c9_amended_empty_output_mutation sampleRoutesTable).2.2⟩

/-- C10 counterexample: the district normalization applied per record in the
pipeline maps a missing district to "NAN", not to the empty string — the
`astype(str)` cast stringifies the null to "nan" before
clean_territorial_authority can see it (the bare function on an actual null
would indeed give ""). -/
theorem c10_counterexample :
    pipelineCleanTA PyVal.null = "NAN" ∧
    pipelineCleanTA PyVal.null ≠ "" ∧
    clean_territorial_authority PyVal.null = "" := by
  exact ⟨by decide, by decide, by decide⟩

/-- C10 (amended): for every crime record with a missing district, the
pipeline's district normalization yields "NAN" (the null is stringified to
"nan" first), "NAN" is not in the cleaned target-metro allow-list, and every
record surviving the Auckland filter — the gate to all downstream stages and
both output artifacts — has a non-null district. -/
theorem c10_amended_null_district_excluded :
    pipelineCleanTA PyVal.null = "NAN" ∧
    "NAN" ∉ AUCKLAND_AUTHORITIES_CLEANED ∧
    ∀ (rows : List CrimeCSVRow) (r : CrimeCSVRow),
      r ∈ etlAucklandFilter rows → r.TerritorialAuthority ≠ PyVal.null := by
  refine ⟨by decide, by decide, ?_⟩
  intro rows r hr hnull
  have hmem := (List.mem_filter.mp hr).2
  rw [hnull] at hmem
  simp only [decide_eq_true_eq] at hmem
  have hnan : pipelineCleanTA PyVal.null = "NAN" := by decide
  rw [hnan] at hmem
  exact absurd hmem (by decide)

/-- C10 witness: a concrete record passing the Auckland filter, whose district
is therefore not null. -/
theorem c10_witness :
    rowComplete.TerritorialAuthority ≠ PyVal.null :=
  (c10_amended_null_district_excluded).2.2 [rowComplete] rowComplete (by decide)
